import Mathlib

/-!
Verification of the devstack-core backup/restore engine
(`scripts/devstack/backup.py`, `scripts/devstack/utils.py`,
`scripts/manage_devstack.py`) as a shallow embedding.

Conventions of the embedding:
* File contents are byte lists (`List Nat`); a backup directory is a
  partial map from file name to contents (`FS`).
* Python `dict`-shaped JSON manifests are modelled by the `Json`
  inductive below; `dict` key lookup is association-list lookup
  (keys produced by the code are unique).
* `subprocess.run` results are oracle inputs (`GpgOutcome`): exit code,
  produced bytes, or a raised exception.
* `hashlib.sha256` (used by `calculate_file_checksum` in
  `devstack/utils.py`) is implemented bit-faithfully (FIPS 180-4) over
  byte lists; the streaming 4096-byte chunking in the Python code does
  not change the digest of the concatenated stream, so the model hashes
  the whole contents.
-/

/-- Minimal JSON value model for the dict-shaped manifests. -/
inductive Json where
  | null : Json
  | bool (b : Bool) : Json
  | num (n : Nat) : Json
  | str (s : String) : Json
  | arr (l : List Json) : Json
  | obj (l : List (String × Json)) : Json

/-- `d.get(k)` on a Python dict modelled as an association list. -/
def lookupJ : List (String × Json) → String → Option Json
  | [], _ => none
  | (k, v) :: rest, key => if k = key then some v else lookupJ rest key

/-- The field list of a JSON object, `[]` for any other value. -/
def Json.asObjD : Json → List (String × Json)
  | .obj l => l
  | _ => []

/-- Python truthiness of a JSON value (`{}`, `""`, `0`, `null`, `false`,
`[]` are falsy). -/
def jTruthy : Json → Bool
  | .null => false
  | .bool b => b
  | .num n => n != 0
  | .str s => s != ""
  | .arr l => !l.isEmpty
  | .obj l => !l.isEmpty

/-- Truthiness of `d.get(k)` (`None` is falsy). -/
def optJTruthy : Option Json → Bool
  | none => false
  | some j => jTruthy j

/-- Extract a string value, with a default (models code paths that only
run on string-valued fields). -/
def getStrD : Option Json → String → String
  | some (.str s), _ => s
  | _, d => d

/-- Whether a JSON value is a string. -/
def jsonIsStr : Json → Bool
  | .str _ => true
  | _ => false

/-! ## SHA-256 (FIPS 180-4), the model of `hashlib.sha256` -/

/-- Truncation to a 32-bit word. -/
def w32 (n : Nat) : Nat := n % 4294967296

/-- 32-bit right rotation. -/
def rotr32 (x n : Nat) : Nat := w32 ((x >>> n) ||| (x <<< (32 - n)))

def bigSigma0 (x : Nat) : Nat := (rotr32 x 2) ^^^ (rotr32 x 13) ^^^ (rotr32 x 22)

def bigSigma1 (x : Nat) : Nat := (rotr32 x 6) ^^^ (rotr32 x 11) ^^^ (rotr32 x 25)

def smallSigma0 (x : Nat) : Nat := (rotr32 x 7) ^^^ (rotr32 x 18) ^^^ (x >>> 3)

def smallSigma1 (x : Nat) : Nat := (rotr32 x 17) ^^^ (rotr32 x 19) ^^^ (x >>> 10)

def chHash (x y z : Nat) : Nat := (x &&& y) ^^^ ((x ^^^ 4294967295) &&& z)

def majHash (x y z : Nat) : Nat := (x &&& y) ^^^ (x &&& z) ^^^ (y &&& z)

/-- The eight working variables / hash state words. -/
structure Hash8 where
  a : Nat
  b : Nat
  c : Nat
  d : Nat
  e : Nat
  f : Nat
  g : Nat
  h : Nat

def sha256Init : Hash8 :=
  ⟨1779033703, 3144134277, 1013904242, 2773480762,
   1359893119, 2600822924, 528734635, 1541459225⟩

def kConsts : List Nat :=
  [1116352408, 1899447441, 3049323471, 3921009573,
   961987163, 1508970993, 2453635748, 2870763221,
   3624381080, 310598401, 607225278, 1426881987,
   1925078388, 2162078206, 2614888103, 3248222580,
   3835390401, 4022224774, 264347078, 604807628,
   770255983, 1249150122, 1555081692, 1996064986,
   2554220882, 2821834349, 2952996808, 3210313671,
   3336571891, 3584528711, 113926993, 338241895,
   666307205, 773529912, 1294757372, 1396182291,
   1695183700, 1986661051, 2177026350, 2456956037,
   2730485921, 2820302411, 3259730800, 3345764771,
   3516065817, 3600352804, 4094571909, 275423344,
   430227734, 506948616, 659060556, 883997877,
   958139571, 1322822218, 1537002063, 1747873779,
   1955562222, 2024104815, 2227730452, 2361852424,
   2428436474, 2756734187, 3204031479, 3329325298]

/-- Extend a 16-word message block to the 64-entry message schedule,
adding `n` further entries. -/
def extendSched : List Nat → Nat → List Nat
  | ws, 0 => ws
  | ws, n + 1 =>
    extendSched
      (ws ++ [w32 (smallSigma1 (ws.getD (ws.length - 2) 0) +
        ws.getD (ws.length - 7) 0 +
        smallSigma0 (ws.getD (ws.length - 15) 0) +
        ws.getD (ws.length - 16) 0)]) n

/-- One compression round; the pair carries `(K[t], W[t])`. -/
def roundStep (s : Hash8) (kw : Nat × Nat) : Hash8 :=
  let t1 := w32 (s.h + bigSigma1 s.e + chHash s.e s.f s.g + kw.1 + kw.2)
  let t2 := w32 (bigSigma0 s.a + majHash s.a s.b s.c)
  ⟨w32 (t1 + t2), s.a, s.b, s.c, w32 (s.d + t1), s.e, s.f, s.g⟩

/-- Compress one 16-word block into the running hash state. -/
def compressBlock (s : Hash8) (block : List Nat) : Hash8 :=
  let ws := extendSched block 48
  let t := (kConsts.zip ws).foldl roundStep s
  ⟨w32 (s.a + t.a), w32 (s.b + t.b), w32 (s.c + t.c), w32 (s.d + t.d),
   w32 (s.e + t.e), w32 (s.f + t.f), w32 (s.g + t.g), w32 (s.h + t.h)⟩

/-- The 8-byte big-endian encoding of the message bit length. -/
def lenBytes64 (n : Nat) : List Nat :=
  [n / 2 ^ 56 % 256, n / 2 ^ 48 % 256, n / 2 ^ 40 % 256, n / 2 ^ 32 % 256,
   n / 2 ^ 24 % 256, n / 2 ^ 16 % 256, n / 2 ^ 8 % 256, n % 256]

/-- SHA-256 padding: `0x80`, zeros to 56 mod 64, then the bit length. -/
def padMessage (msg : List Nat) : List Nat :=
  msg ++ 128 :: (List.replicate ((119 - msg.length % 64) % 64) 0 ++
    lenBytes64 (msg.length * 8))

/-- Group bytes into big-endian 32-bit words. -/
def bytesToWords : List Nat → List Nat
  | b0 :: b1 :: b2 :: b3 :: rest =>
    (b0 * 16777216 + b1 * 65536 + b2 * 256 + b3) :: bytesToWords rest
  | _ => []

/-- Split a byte list into 64-byte chunks (fuel-driven so that the
definition is structural and kernel-reducible). -/
def chunks64 : Nat → List Nat → List (List Nat)
  | 0, _ => []
  | _ + 1, [] => []
  | fuel + 1, l => l.take 64 :: chunks64 fuel (l.drop 64)

/-- SHA-256 of a byte list: final hash state. -/
def sha256 (data : List Nat) : Hash8 :=
  (((chunks64 (padMessage data).length (padMessage data)).map
    bytesToWords).foldl compressBlock sha256Init)

/-- Big-endian bytes of one 32-bit word. -/
def wordBytes (w : Nat) : List Nat :=
  [w / 2 ^ 24 % 256, w / 2 ^ 16 % 256, w / 2 ^ 8 % 256, w % 256]

/-- The 32-byte digest. -/
def digestBytes (s : Hash8) : List Nat :=
  wordBytes s.a ++ wordBytes s.b ++ wordBytes s.c ++ wordBytes s.d ++
  wordBytes s.e ++ wordBytes s.f ++ wordBytes s.g ++ wordBytes s.h

/-! ## Lowercase hex encoding (model of `hexdigest()`) -/

def hexDigitChars : List Char := "0123456789abcdef".data

def hexDigit (n : Nat) : Char := hexDigitChars.getD n '0'

def hexByte (b : Nat) : List Char := [hexDigit (b / 16 % 16), hexDigit (b % 16)]

def bytesToHexChars : List Nat → List Char
  | [] => []
  | b :: rest => hexByte b ++ bytesToHexChars rest

/-- Model of `calculate_file_checksum` (devstack/utils.py lines 199-213):
lowercase hex SHA-256 digest of the file's bytes. -/
def calculateFileChecksum (contents : List Nat) : String :=
  String.mk (bytesToHexChars (digestBytes (sha256 contents)))

/-- The `f"sha256:{calculate_file_checksum(...)}"` string written into
manifests (backup.py lines 109 and 131). -/
def checksumString (contents : List Nat) : String :=
  String.mk ("sha256:".data ++ bytesToHexChars (digestBytes (sha256 contents)))

/-! ## Backup directory model -/

/-- A backup directory: partial map from file name to byte contents. -/
def FS := String → Option (List Nat)

def fsInsert (fs : FS) (name : String) (contents : List Nat) : FS :=
  fun n => if n = name then some contents else fs n

def fsRemove (fs : FS) (name : String) : FS :=
  fun n => if n = name then none else fs n

def fsEmpty : FS := fun _ => none

/-- The `db_files` table of `create_backup_manifest`
(backup.py lines 91-96). -/
def dbFiles : List (String × String) :=
  [("postgres", "postgres_all.sql"), ("mysql", "mysql_all.sql"),
   ("mongodb", "mongodb_dump.archive"), ("forgejo", "forgejo_data.tar.gz")]

/-- Python truthiness of an optional string (`None` and `""` falsy). -/
def optStrTruthy : Option String → Bool
  | none => false
  | some s => s != ""

def optStrJson : Option String → Json
  | none => Json.null
  | some s => Json.str s

/-! ## Manifest Generator (`create_backup_manifest`, backup.py 40-145) -/

/-- One database entry of the manifest (backup.py lines 98-119):
`actual_file` is the `.gpg` name when `encrypted` else the plain name;
the entry is built only when that single candidate exists. Returns the
JSON entry together with the file size accumulated into
`total_size_bytes`. -/
def dbEntry (fs : FS) (encrypted : Bool) (backupType : String)
    (baseBackup : Option String) (dbName filename : String) :
    Option (Json × Nat) :=
  let actual := if encrypted then filename ++ ".gpg" else filename
  match fs actual with
  | none => none
  | some contents =>
    some (Json.obj
      ([("type", Json.str (if dbName == "forgejo" then backupType else "full")),
        ("file", Json.str actual),
        ("size_bytes", Json.num contents.length),
        ("checksum", Json.str (checksumString contents))] ++
       (if encrypted then [("original_file", Json.str filename)] else []) ++
       (if dbName == "forgejo" && (backupType == "incremental") &&
           optStrTruthy baseBackup then
          [("base_backup", Json.str (baseBackup.getD ""))] else [])),
      contents.length)

/-- The `manifest["databases"]` object. -/
def manifestDatabases (fs : FS) (encrypted : Bool) (backupType : String)
    (baseBackup : Option String) : List (String × Json) :=
  dbFiles.filterMap fun p =>
    (dbEntry fs encrypted backupType baseBackup p.1 p.2).map fun e => (p.1, e.1)

/-- Sum of the sizes accumulated from included database entries. -/
def dbTotalSize (fs : FS) (encrypted : Bool) (backupType : String)
    (baseBackup : Option String) : Nat :=
  (dbFiles.filterMap fun p =>
    (dbEntry fs encrypted backupType baseBackup p.1 p.2).map fun e => e.2).sum

/-- The config entry (backup.py lines 121-138). -/
def configEntry (fs : FS) (encrypted : Bool) : Option (Json × Nat) :=
  let actual := if encrypted then ".env.backup.gpg" else ".env.backup"
  match fs actual with
  | none => none
  | some contents =>
    some (Json.obj
      ([("env_file", Json.str actual),
        ("size_bytes", Json.num contents.length),
        ("checksum", Json.str (checksumString contents))] ++
       (if encrypted then [("original_file", Json.str ".env.backup")] else [])),
      contents.length)

/-- `manifest["config"]`: stays the empty object when no config artifact
is present. -/
def manifestConfigJson (fs : FS) (encrypted : Bool) : Json :=
  match configEntry fs encrypted with
  | none => Json.obj []
  | some e => e.1

def configSize (fs : FS) (encrypted : Bool) : Nat :=
  match configEntry fs encrypted with
  | none => 0
  | some e => e.2

/-- `create_backup_manifest` (backup.py lines 40-145) as the manifest
value it builds and persists. `backupId` is `backup_dir.name`;
`timestamp` and `duration` are the clock readings. The conditional
`encryption` block is appended where the Python dict gained the key. -/
def createBackupManifest (fs : FS) (backupType : String)
    (baseBackup previousBackup : Option String) (timestamp : String)
    (duration : Nat) (encrypted : Bool) (backupId : String) :
    List (String × Json) :=
  [("backup_id", Json.str backupId),
   ("backup_type", Json.str backupType),
   ("timestamp", Json.str timestamp),
   ("base_backup", optStrJson baseBackup),
   ("previous_backup", optStrJson previousBackup),
   ("encrypted", Json.bool encrypted),
   ("databases", Json.obj (manifestDatabases fs encrypted backupType baseBackup)),
   ("config", manifestConfigJson fs encrypted),
   ("total_size_bytes",
    Json.num (dbTotalSize fs encrypted backupType baseBackup + configSize fs encrypted)),
   ("duration_seconds", Json.num duration),
   ("vault_approle_used", Json.bool true)] ++
  (if encrypted then
     [("encryption", Json.obj
       [("algorithm", Json.str "AES256"),
        ("method", Json.str "GPG symmetric"),
        ("passphrase_hint", Json.str "vault-backup-passphrase")])]
   else [])

/-! ## Integrity Verifier (`verify_backup_integrity`, backup.py 359-519) -/

/-- How reading `manifest.json` went: the file may be absent, fail to
parse (`json.JSONDecodeError` / read error), or yield a JSON value. -/
inductive ManifestSrc where
  | missing
  | corrupt
  | parsedJ (j : Json)

structure VReport where
  files_verified : Nat
  files_failed : Nat
  files_total : Nat
  errors : List String
  warnings : List String
  details : List (String × String)
deriving DecidableEq

def emptyReport : VReport := ⟨0, 0, 0, [], [], []⟩

/-- The pattern removed by `.replace("sha256:", "")`
(backup.py lines 422 and 472): the characters of `"sha256:"`. -/
def sha256Tag : List Char := ['s', 'h', 'a', '2', '5', '6', ':']

/-- Does the first list start the second? -/
def leadsWith : List Char → List Char → Bool
  | p :: ps, q :: qs => p == q && leadsWith ps qs
  | [], _ => true
  | _ :: _, [] => false

/-- Left-to-right removal of every (non-overlapping) occurrence of
`sha256Tag`, fuel-driven; the fuel is the input length. -/
def removeOcc : Nat → List Char → List Char
  | 0, l => l
  | _ + 1, [] => []
  | fuel + 1, c :: rest =>
    if leadsWith sha256Tag (c :: rest) then
      removeOcc fuel ((c :: rest).drop sha256Tag.length)
    else c :: removeOcc fuel rest

/-- Model of `s.replace("sha256:", "")`. -/
def stripSha256 (s : String) : String :=
  String.mk (removeOcc s.data.length s.data)

/-- One iteration of the database-verification loop
(backup.py lines 414-464). The unreachable `except` arm (checksum
computation is pure here) is the only omitted path. -/
def processDb (fs : FS) (r : VReport) (dbName : String) (dbInfo : Json) :
    VReport :=
  let info := dbInfo.asObjD
  if !optJTruthy (lookupJ info "file") then
    { r with files_failed := r.files_failed + 1,
             errors := r.errors ++ [dbName ++ ": Missing filename in manifest"] }
  else
    let filename := getStrD (lookupJ info "file") ""
    let expected := stripSha256 (getStrD (lookupJ info "checksum") "")
    match fs filename with
    | none =>
      { r with files_failed := r.files_failed + 1,
               errors := r.errors ++ [filename ++ ": File missing"],
               details := r.details ++ [(filename, "missing")] }
    | some contents =>
      if calculateFileChecksum contents == expected then
        { r with files_verified := r.files_verified + 1,
                 details := r.details ++ [(filename, "ok")] }
      else
        { r with files_failed := r.files_failed + 1,
                 errors := r.errors ++ [filename ++ ": Checksum mismatch"],
                 details := r.details ++ [(filename, "checksum_mismatch")] }

/-- The config-file verification block (backup.py lines 466-513); the
caller only enters it when `env_file` is truthy. -/
def processConfig (fs : FS) (r : VReport) (cinfo : List (String × Json)) :
    VReport :=
  let filename := getStrD (lookupJ cinfo "env_file") ""
  let expected := stripSha256 (getStrD (lookupJ cinfo "checksum") "")
  match fs filename with
  | none =>
    { r with files_failed := r.files_failed + 1,
             errors := r.errors ++ [filename ++ ": File missing"],
             details := r.details ++ [(filename, "missing")] }
  | some contents =>
    if calculateFileChecksum contents == expected then
      { r with files_verified := r.files_verified + 1,
               details := r.details ++ [(filename, "ok")] }
    else
      { r with files_failed := r.files_failed + 1,
               errors := r.errors ++ [filename ++ ": Checksum mismatch"],
               details := r.details ++ [(filename, "checksum_mismatch")] }

def requiredManifestFields : List String :=
  ["backup_id", "backup_type", "encrypted", "databases"]

/-- `verify_backup_integrity` (backup.py lines 359-519). -/
def verifyBackupIntegrity (msrc : ManifestSrc) (fs : FS) : Bool × VReport :=
  match msrc with
  | .missing => (false, { emptyReport with errors := ["Manifest file not found"] })
  | .corrupt => (false, { emptyReport with errors := ["Manifest is corrupted"] })
  | .parsedJ j =>
    let m := j.asObjD
    match requiredManifestFields.find? (fun f => (lookupJ m f).isNone) with
    | some f =>
      (false, { emptyReport with
                errors := ["Manifest missing required field: " ++ f] })
    | none =>
      let dbs := ((lookupJ m "databases").getD (Json.obj [])).asObjD
      let total := dbs.length + (if optJTruthy (lookupJ m "config") then 1 else 0)
      let r1 := { emptyReport with files_total := total }
      let r2 := dbs.foldl (fun r p => processDb fs r p.1 p.2) r1
      let r3 :=
        if optJTruthy (lookupJ m "config") then
          let cinfo := ((lookupJ m "config").getD (Json.obj [])).asObjD
          if optJTruthy (lookupJ cinfo "env_file") then processConfig fs r2 cinfo
          else r2
        else r2
      ((r3.files_failed == 0) && (r3.files_verified == r3.files_total), r3)

/-! ## Chain Resolver (`find_latest_full_backup`, backup.py 148-183) -/

/-- One entry of `backups_dir.iterdir()`: its name, whether it is a
directory, and how reading its `manifest.json` would go. -/
structure DirEntry where
  name : String
  isDir : Bool
  manifest : ManifestSrc

/-- Does the directory's manifest load and satisfy
`manifest.get("backup_type") == "full"`? A missing file is skipped
before the `try`; a corrupt one and a non-dict value (whose `.get`
raises) are skipped by the `except`. -/
def manifestSaysFull : ManifestSrc → Bool
  | .parsedJ j =>
    match lookupJ j.asObjD "backup_type" with
    | some (.str s) => s == "full"
    | _ => false
  | _ => false

/-- First loop of `find_latest_full_backup` (lines 164-176): first
directory, in the given order, whose manifest parses with
`backup_type == "full"`. -/
def scanForFull : List DirEntry → Option String
  | [] => none
  | d :: rest =>
    if d.isDir && manifestSaysFull d.manifest then some d.name
    else scanForFull rest

/-- Fallback loop (lines 178-181): first directory whose name starts
with a digit. (`name[0]` on an empty name would raise in Python;
backup directory names are never empty.) -/
def fallbackScan : List DirEntry → Option String
  | [] => none
  | d :: rest =>
    if d.isDir && !d.name.isEmpty && d.name.front.isDigit then some d.name
    else fallbackScan rest

/-- Lexicographic (code-point) strict ordering on char lists — the
ordering Python's `sorted` uses on the directory-name strings. -/
def listCharLt : List Char → List Char → Bool
  | [], [] => false
  | [], _ :: _ => true
  | _ :: _, [] => false
  | a :: as, b :: bs =>
    if a.toNat < b.toNat then true
    else if b.toNat < a.toNat then false
    else listCharLt as bs

def strLtB (a b : String) : Bool := listCharLt a.data b.data

/-- Insertion into a list kept sorted by name in descending order. -/
def insertDesc (d : DirEntry) : List DirEntry → List DirEntry
  | [] => [d]
  | e :: rest =>
    if strLtB d.name e.name then e :: insertDesc d rest else d :: e :: rest

/-- `sorted(backups_dir.iterdir(), reverse=True)`. -/
def sortDescByName (l : List DirEntry) : List DirEntry := l.foldr insertDesc []

/-- `find_latest_full_backup` (backup.py lines 148-183). `rootPresent`
models `backups_dir.exists()`. -/
def findLatestFullBackup (rootPresent : Bool) (entries : List DirEntry) :
    Option String :=
  if !rootPresent then none
  else
    match scanForFull (sortDescByName entries) with
    | some n => some n
    | none => fallbackScan (sortDescByName entries)

/-! ## Encryption Layer (`encrypt_file_gpg` / `decrypt_file_gpg`,
backup.py 259-356) -/

/-- The exact `subprocess.run` argument list of `encrypt_file_gpg`
(backup.py lines 282-291). -/
def gpgEncryptArgs (filePath passphrase : String) : List String :=
  ["gpg", "--symmetric", "--cipher-algo", "AES256", "--batch", "--yes",
   "--passphrase", passphrase, "--output", filePath ++ ".gpg", filePath]

/-- `str(encrypted_path).removesuffix(".gpg")` (backup.py line 330). -/
def removeSuffixGpg (s : String) : String :=
  if s.endsWith ".gpg" then s.dropRight 4 else s

/-- The exact `subprocess.run` argument list of `decrypt_file_gpg`
(backup.py lines 334-342), with the default output path resolved as at
line 330. -/
def gpgDecryptArgs (encryptedPath passphrase : String)
    (outputPath : Option String) : List String :=
  ["gpg", "--decrypt", "--batch", "--yes", "--passphrase", passphrase,
   "--output", outputPath.getD (removeSuffixGpg encryptedPath),
   encryptedPath]

/-- Oracle for a gpg subprocess call: it completes with an exit code
and output bytes, or the call raises. -/
inductive GpgOutcome where
  | completed (returncode : Int) (output : List Nat)
  | raised

/-- `encrypt_file_gpg` (backup.py lines 259-306) as a state transformer:
returns the boolean result and the directory contents afterwards. The
encrypted output appears only on success; `file_path.unlink()` runs only
after a zero exit code. -/
def encryptFileGpg (fs : FS) (filePath passphrase : String)
    (outcome : GpgOutcome) : Bool × FS :=
  if (fs filePath).isNone then (false, fs)
  else
    match outcome with
    | .raised => (false, fs)
    | .completed rc out =>
      if rc != 0 then (false, fs)
      else (true, fsRemove (fsInsert fs (filePath ++ ".gpg") out) filePath)

/-- `decrypt_file_gpg` (backup.py lines 309-356): on success the
plaintext is written to the output path; on failure nothing changes
(the gpg call leaves no output on a bad passphrase). -/
def decryptFileGpg (fs : FS) (encryptedPath passphrase : String)
    (outputPath : Option String) (outcome : GpgOutcome) : Bool × FS :=
  if (fs encryptedPath).isNone then (false, fs)
  else
    match outcome with
    | .raised => (false, fs)
    | .completed rc out =>
      if rc != 0 then (false, fs)
      else (true, fsInsert fs (outputPath.getD (removeSuffixGpg encryptedPath)) out)

/-! ## Restore Orchestrator, one encrypted source step
(`restore`, manage_devstack.py lines 1920-1956 for PostgreSQL; the
MySQL and MongoDB steps at 1981-2000 and 2027-2044 have the same
temp-file structure) -/

/-- The encrypted branch of one source's restore step:
`tempfile.NamedTemporaryFile(delete=False)` creates an (empty) temp
file on disk; if `decrypt_file_gpg` succeeds the restore command runs
and `temp_path.unlink()` executes right after it returns (whatever its
exit code); if the restore call raises, the surrounding `except` skips
the unlink; if decryption fails, the code prints an error and never
unlinks. Returns the resulting directory state. -/
def restoreSourceEncrypted (fs : FS) (backupFile passphrase tempName : String)
    (decryptOutcome restoreOutcome : GpgOutcome) : FS :=
  let fs1 := fsInsert fs tempName []
  match decryptFileGpg fs1 backupFile passphrase (some tempName) decryptOutcome with
  | (true, fs2) =>
    match restoreOutcome with
    | .completed _ _ => fsRemove fs2 tempName
    | .raised => fs2
  | (false, fs2) => fs2

/-! ## Backup Orchestrator type selection
(`backup`, manage_devstack.py lines 1556-1570) -/

/-- The `backup_type` / `base_backup` / `previous_backup` selection:
`latestFull` is what `find_latest_full_backup()` returned. -/
def backupPlan (incremental full : Bool) (latestFull : Option String) :
    String × Option String × Option String :=
  if incremental && !full then
    if optStrTruthy latestFull then ("incremental", latestFull, latestFull)
    else ("full", latestFull, none)
  else ("full", none, none)

/-! ## Shape side conditions

The Python verifier indexes `db_info` / `config_info` like dicts and
builds paths from their string fields; on manifests where those fields
have other shapes it raises instead of returning. The predicates below
carve out the manifests on which the embedding above is faithful. -/

def entryShapeOk (v : Json) : Bool :=
  match v with
  | .obj l =>
    (!optJTruthy (lookupJ l "file") || jsonIsStr ((lookupJ l "file").getD Json.null)) &&
    (((lookupJ l "checksum").map jsonIsStr).getD true)
  | _ => false

def configShapeOk (m : List (String × Json)) : Bool :=
  !optJTruthy (lookupJ m "config") ||
  (match lookupJ m "config" with
   | some (.obj c) =>
     (!optJTruthy (lookupJ c "env_file") ||
      jsonIsStr ((lookupJ c "env_file").getD Json.null)) &&
     (((lookupJ c "checksum").map jsonIsStr).getD true)
   | _ => false)

def databasesShapeOk (m : List (String × Json)) : Bool :=
  match lookupJ m "databases" with
  | none => true
  | some (.obj l) => l.all fun p => entryShapeOk p.2
  | some _ => false

def manifestShapeOk : ManifestSrc → Bool
  | .parsedJ (.obj m) => databasesShapeOk m && configShapeOk m
  | .parsedJ _ => false
  | _ => true

/-- Did the manifest file exist and parse? -/
def manifestLoadOk : ManifestSrc → Bool
  | .parsedJ _ => true
  | _ => false

/-- Are the four required fields present? -/
def requiredFieldsOk (j : Json) : Bool :=
  requiredManifestFields.all fun f => (lookupJ j.asObjD f).isSome

/-! ## Helper lemmas: hex digests and the `sha256:` prefix -/

theorem length_bytesToHexChars (l : List Nat) :
    (bytesToHexChars l).length = 2 * l.length := by
  induction l with
  | nil => rfl
  | cons b t ih => simp [bytesToHexChars, hexByte, ih]; omega

theorem digestBytes_length (s : Hash8) : (digestBytes s).length = 32 := by
  simp [digestBytes, wordBytes]

theorem hexDigit_mem_of_lt : ∀ n < 16, hexDigit n ∈ hexDigitChars := by decide

theorem mem_hexDigitChars_of_mem_bytesToHexChars :
    ∀ (l : List Nat) (c : Char), c ∈ bytesToHexChars l → c ∈ hexDigitChars := by
  intro l
  induction l with
  | nil => intro c hc; cases hc
  | cons b t ih =>
    intro c hc
    simp only [bytesToHexChars, hexByte, List.cons_append, List.nil_append,
      List.mem_cons] at hc
    rcases hc with h | h | h
    · subst h; exact hexDigit_mem_of_lt _ (Nat.mod_lt _ (by omega))
    · subst h; exact hexDigit_mem_of_lt _ (Nat.mod_lt _ (by omega))
    · exact ih c h

theorem ne_s_of_mem_hexDigitChars : ∀ c ∈ hexDigitChars, c ≠ 's' := by decide

theorem leadsWith_append (pat rest : List Char) :
    leadsWith pat (pat ++ rest) = true := by
  induction pat with
  | nil => rfl
  | cons a as ih => simp [leadsWith, ih]

theorem removeOcc_of_no_s :
    ∀ (fuel : Nat) (l : List Char), (∀ c ∈ l, c ≠ 's') → removeOcc fuel l = l := by
  intro fuel
  induction fuel with
  | zero => intro l _; rfl
  | succ n ih =>
    intro l h
    cases l with
    | nil => rfl
    | cons c rest =>
      have hc : c ≠ 's' := h c (List.mem_cons_self c rest)
      have hlw : leadsWith sha256Tag (c :: rest) = false := by
        simp [sha256Tag, leadsWith, beq_eq_false_iff_ne]
        intro h'
        exact absurd h'.symm hc
      rw [removeOcc, hlw]
      simp only [Bool.false_eq_true, if_false]
      rw [ih rest fun c' hc' => h c' (List.mem_cons_of_mem c hc')]

theorem removeOcc_strips_tag (fuel : Nat) (h : List Char)
    (hh : ∀ c ∈ h, c ≠ 's') :
    removeOcc (fuel + 1) (sha256Tag ++ h) = h := by
  have hlw : leadsWith sha256Tag (sha256Tag ++ h) = true := leadsWith_append _ _
  show removeOcc (fuel + 1)
    ('s' :: (['h', 'a', '2', '5', '6', ':'] ++ h)) = h
  rw [removeOcc]
  have : leadsWith sha256Tag ('s' :: (['h', 'a', '2', '5', '6', ':'] ++ h)) = true := hlw
  rw [this]
  simp only [if_true]
  show removeOcc fuel h = h
  exact removeOcc_of_no_s fuel h hh

theorem strip_checksumString (contents : List Nat) :
    stripSha256 (checksumString contents) = calculateFileChecksum contents := by
  have hdata : (checksumString contents).data =
      sha256Tag ++ bytesToHexChars (digestBytes (sha256 contents)) := rfl
  have hchars : ∀ c ∈ bytesToHexChars (digestBytes (sha256 contents)), c ≠ 's' :=
    fun c hc =>
      ne_s_of_mem_hexDigitChars c (mem_hexDigitChars_of_mem_bytesToHexChars _ c hc)
  have hlen : (checksumString contents).data.length =
      (6 + (bytesToHexChars (digestBytes (sha256 contents))).length) + 1 := by
    rw [hdata]
    simp [sha256Tag]
    omega
  show String.mk (removeOcc (checksumString contents).data.length
    (checksumString contents).data) = calculateFileChecksum contents
  rw [hlen, hdata, removeOcc_strips_tag _ _ hchars]
  rfl

/-- The `sha256:<64 lowercase hex chars>` shape of a checksum string. -/
def checksumFormOk (s : String) : Bool :=
  leadsWith sha256Tag s.data && (s.data.length == 71) &&
  (s.data.drop 7).all fun c => hexDigitChars.contains c

theorem checksumString_formOk (contents : List Nat) :
    checksumFormOk (checksumString contents) = true := by
  have hdata : (checksumString contents).data =
      sha256Tag ++ bytesToHexChars (digestBytes (sha256 contents)) := rfl
  unfold checksumFormOk
  rw [hdata]
  refine (Bool.and_eq_true _ _).mpr ⟨(Bool.and_eq_true _ _).mpr ⟨?_, ?_⟩, ?_⟩
  · exact leadsWith_append _ _
  · simp [sha256Tag, length_bytesToHexChars, digestBytes_length]
  · have hdrop : (sha256Tag ++ bytesToHexChars (digestBytes (sha256 contents))).drop 7 =
        bytesToHexChars (digestBytes (sha256 contents)) := by
      simp [sha256Tag]
    rw [hdrop]
    refine List.all_eq_true.mpr fun c hc => ?_
    exact List.elem_eq_true_of_mem
      (mem_hexDigitChars_of_mem_bytesToHexChars _ c hc)

/-! ## Generic counting lemmas for the verifier loops -/

theorem processDb_one_verdict (fs : FS) (r : VReport) (dbName : String)
    (dbInfo : Json) :
    (processDb fs r dbName dbInfo).files_verified +
      (processDb fs r dbName dbInfo).files_failed =
      r.files_verified + r.files_failed + 1 ∧
    (processDb fs r dbName dbInfo).files_total = r.files_total := by
  simp only [processDb]
  split
  · exact ⟨by simp; try omega, rfl⟩
  · split
    · exact ⟨by simp; try omega, rfl⟩
    · split
      · exact ⟨by simp; try omega, rfl⟩
      · exact ⟨by simp; try omega, rfl⟩

theorem foldl_processDb_count (fs : FS) (l : List (String × Json)) :
    ∀ r : VReport,
      (l.foldl (fun r p => processDb fs r p.1 p.2) r).files_verified +
        (l.foldl (fun r p => processDb fs r p.1 p.2) r).files_failed =
        r.files_verified + r.files_failed + l.length ∧
      (l.foldl (fun r p => processDb fs r p.1 p.2) r).files_total =
        r.files_total := by
  induction l with
  | nil => intro r; exact ⟨by simp, rfl⟩
  | cons hd tl ih =>
    intro r
    have h1 := processDb_one_verdict fs r hd.1 hd.2
    have h2 := ih (processDb fs r hd.1 hd.2)
    simp only [List.foldl_cons, List.length_cons]
    exact ⟨by omega, by omega⟩

theorem processConfig_one_verdict (fs : FS) (r : VReport)
    (cinfo : List (String × Json)) :
    (processConfig fs r cinfo).files_verified +
      (processConfig fs r cinfo).files_failed =
      r.files_verified + r.files_failed + 1 ∧
    (processConfig fs r cinfo).files_total = r.files_total := by
  simp only [processConfig]
  split
  · exact ⟨by simp; try omega, rfl⟩
  · split
    · exact ⟨by simp; try omega, rfl⟩
    · exact ⟨by simp; try omega, rfl⟩

/-! ## Claim C1 -/

/-- C1 counterexample: the claim says the passphrase never appears as an
element of the gpg argument list; at the concrete invocation
`encrypt_file_gpg("db.sql", "hunter2")` (and the matching decrypt call)
the passphrase is an element of the `subprocess.run` argument list,
right after `--passphrase`. -/
theorem c1_counterexample :
    "hunter2" ∈ gpgEncryptArgs "db.sql" "hunter2" ∧
    "hunter2" ∈ gpgDecryptArgs "db.sql.gpg" "hunter2" none := by
  decide

/-- C1 amended: for every file path and passphrase, both
`encrypt_file_gpg` and `decrypt_file_gpg` pass the passphrase as a
plain command-line argument (the element following `--passphrase`) of
the gpg subprocess invocation; no environment or stdin channel is used
for it. -/
theorem c1_amended (filePath passphrase encryptedPath : String)
    (outputPath : Option String) :
    passphrase ∈ gpgEncryptArgs filePath passphrase ∧
    passphrase ∈ gpgDecryptArgs encryptedPath passphrase outputPath := by
  refine ⟨?_, ?_⟩ <;> simp [gpgEncryptArgs, gpgDecryptArgs]

/-! ## Claim C2 -/

/-- The four database sources of a backup directory holding only the
plaintext postgres dump. -/
def c2Fs : FS := fun n => if n = "postgres_all.sql" then some [1, 2, 3] else none

/-- C2 counterexample: with `encrypted=true`, a directory holding only
the plaintext `postgres_all.sql` (its per-file encryption failed)
produces a manifest whose `databases` object is empty — the source is
omitted, not checksummed in plaintext form. -/
theorem c2_counterexample :
    c2Fs "postgres_all.sql" = some [1, 2, 3] ∧
    lookupJ (createBackupManifest c2Fs "full" none none "t" 0 true "b")
      "databases" = some (Json.obj []) := by
  exact ⟨rfl, rfl⟩

theorem manifestDatabases_names (fs : FS) (bt : String) (bb : Option String) :
    ∀ l : List (String × String),
      ((l.filterMap fun p =>
        (dbEntry fs true bt bb p.1 p.2).map fun e => (p.1, e.1)).map Prod.fst) =
      ((l.filter fun p => (fs (p.2 ++ ".gpg")).isSome).map Prod.fst) := by
  intro l
  induction l with
  | nil => rfl
  | cons hd tl ih =>
    rcases hd with ⟨dn, fn⟩
    simp only [List.filterMap_cons, List.filter_cons]
    cases h : fs (fn ++ ".gpg") with
    | none =>
      have hh : dbEntry fs true bt bb dn fn = none := by simp [dbEntry, h]
      simp only [hh, Option.map_none']
      simpa [h] using ih
    | some v =>
      cases ho : dbEntry fs true bt bb dn fn with
      | none => simp [dbEntry, h] at ho
      | some e =>
        simp only [ho, Option.map_some']
        simpa [h] using ih

/-- C2 amended: with `encrypted=true` the Manifest Generator consults
only the `.gpg` artifact of each source: the names included in
`manifest["databases"]` are exactly the sources whose encrypted
artifact exists; a source whose plaintext artifact alone exists (for
example because its per-file encryption failed) is omitted. -/
theorem c2_amended (fs : FS) (bt : String) (bb pb : Option String)
    (ts : String) (dur : Nat) (bid : String) :
    lookupJ (createBackupManifest fs bt bb pb ts dur true bid) "databases" =
      some (Json.obj (manifestDatabases fs true bt bb)) ∧
    (manifestDatabases fs true bt bb).map Prod.fst =
      ((dbFiles.filter fun p => (fs (p.2 ++ ".gpg")).isSome).map Prod.fst) := by
  exact ⟨rfl, manifestDatabases_names fs bt bb dbFiles⟩

/-! ## Claim C3 -/

/-- A backups root holding a single directory with a perfectly valid
manifest whose `backup_type` is `"incremental"`. -/
def c3Entry : DirEntry :=
  ⟨"20250101_000000", true,
   .parsedJ (Json.obj
     [("backup_id", Json.str "20250101_000000"),
      ("backup_type", Json.str "incremental"),
      ("encrypted", Json.bool false),
      ("databases", Json.obj [])])⟩

/-- A newer directory whose manifest is corrupted, next to an older
valid full backup. -/
def c3CorruptEntry : DirEntry := ⟨"20250202_000000", true, .corrupt⟩

def c3FullEntry : DirEntry :=
  ⟨"20250101_000000", true,
   .parsedJ (Json.obj [("backup_type", Json.str "full")])⟩

/-- C3: the manifest scan over a root holding one valid *incremental*
manifest finds no full backup, yet `find_latest_full_backup` still
answers through the name-based fallback and returns the incremental
directory as if it were full — the fallback is not restricted to the
no-readable-manifest case, contradicting the code's own comment
(`assume all backups are full if no manifests`). The skip-on-corruption
part of the claim does hold: a newer corrupted manifest is skipped and
the older valid full backup is returned. -/
theorem c3_bug :
    scanForFull (sortDescByName [c3Entry]) = none ∧
    findLatestFullBackup true [c3Entry] = some "20250101_000000" ∧
    findLatestFullBackup true [c3FullEntry, c3CorruptEntry] =
      some "20250101_000000" := by
  exact ⟨rfl, rfl, rfl⟩

/-! ## Claim C5 -/

/-- A backup directory holding only the encrypted postgres dump. -/
def c5Fs : FS :=
  fun n => if n = "postgres_all.sql.gpg" then some [4, 5, 6] else none

/-- C5 counterexample: on the decryption-failure path (gpg exits 2) the
temporary file created by `NamedTemporaryFile(delete=False)` is still
present afterwards — the claim that the temporary plaintext is removed
on every exit path fails. -/
theorem c5_counterexample :
    restoreSourceEncrypted c5Fs "postgres_all.sql.gpg" "pw" "/tmp/tmpx.sql"
      (GpgOutcome.completed 2 []) (GpgOutcome.completed 0 []) "/tmp/tmpx.sql" =
      some [] := by
  rfl

/-- C5 amended: in the encrypted restore step of a source, the
temporary file is removed when decryption succeeds and the restore
command returns (with any exit code); but it remains on disk on the
decryption-failure path (holding the empty temp contents), and also
when the restore command raises (holding the decrypted plaintext). -/
theorem c5_amended (fs : FS) (backupFile passphrase tempName : String)
    (encBytes plain out : List Nat) (rc drc : Int)
    (anyRestore : GpgOutcome)
    (h1 : fs backupFile = some encBytes) (h2 : tempName ≠ backupFile)
    (h3 : drc ≠ 0) :
    restoreSourceEncrypted fs backupFile passphrase tempName
      (GpgOutcome.completed 0 plain) (GpgOutcome.completed rc out) tempName =
      none ∧
    restoreSourceEncrypted fs backupFile passphrase tempName
      (GpgOutcome.completed 0 plain) GpgOutcome.raised tempName =
      some plain ∧
    restoreSourceEncrypted fs backupFile passphrase tempName
      (GpgOutcome.completed drc out) anyRestore tempName = some [] ∧
    restoreSourceEncrypted fs backupFile passphrase tempName
      GpgOutcome.raised anyRestore tempName = some [] := by
  have h2' : backupFile ≠ tempName := Ne.symm h2
  have hd : (drc != 0) = true := by simpa using h3
  refine ⟨?_, ?_, ?_, ?_⟩ <;>
    simp [restoreSourceEncrypted, decryptFileGpg, fsInsert, fsRemove,
      h1, h2', hd]

/-- C5 witness: the amended statement at the directory above, a failing
decrypt exit code 1 and a successful restore. -/
theorem c5_witness :
    c5Fs "postgres_all.sql.gpg" = some [4, 5, 6] ∧
    "/tmp/tmpx.sql" ≠ "postgres_all.sql.gpg" ∧
    (restoreSourceEncrypted c5Fs "postgres_all.sql.gpg" "pw" "/tmp/tmpx.sql"
        (GpgOutcome.completed 0 [7]) (GpgOutcome.completed 0 []) "/tmp/tmpx.sql" =
        none ∧
      restoreSourceEncrypted c5Fs "postgres_all.sql.gpg" "pw" "/tmp/tmpx.sql"
        (GpgOutcome.completed 0 [7]) GpgOutcome.raised "/tmp/tmpx.sql" =
        some [7] ∧
      restoreSourceEncrypted c5Fs "postgres_all.sql.gpg" "pw" "/tmp/tmpx.sql"
        (GpgOutcome.completed 1 []) (GpgOutcome.completed 0 []) "/tmp/tmpx.sql" =
        some [] ∧
      restoreSourceEncrypted c5Fs "postgres_all.sql.gpg" "pw" "/tmp/tmpx.sql"
        GpgOutcome.raised (GpgOutcome.completed 0 []) "/tmp/tmpx.sql" =
        some []) :=
  ⟨rfl, by decide,
   c5_amended c5Fs "postgres_all.sql.gpg" "pw" "/tmp/tmpx.sql" [4, 5, 6]
     [7] [] 0 1 (GpgOutcome.completed 0 []) rfl (by decide) (by decide)⟩

/-! ## Claim C6 -/

/-- C6: `encrypt_file_gpg` on an existing plaintext file returns `True`
exactly when the gpg subprocess exits 0; the plaintext is deleted when
(and only when) the exit code is 0, and on a raised exception the call
returns `False` with the plaintext untouched. -/
theorem c6_theorem (fs : FS) (filePath passphrase : String) (rc : Int)
    (out : List Nat) (hex : (fs filePath).isSome = true) :
    (encryptFileGpg fs filePath passphrase (GpgOutcome.completed rc out)).1 =
      decide (rc = 0) ∧
    (encryptFileGpg fs filePath passphrase (GpgOutcome.completed rc out)).2
      filePath = (if rc = 0 then none else fs filePath) ∧
    (encryptFileGpg fs filePath passphrase GpgOutcome.raised).1 = false ∧
    (encryptFileGpg fs filePath passphrase GpgOutcome.raised).2 filePath =
      fs filePath := by
  rcases hfp : fs filePath with _ | v
  · rw [hfp] at hex
    cases hex
  · by_cases h0 : rc = 0
    · subst h0
      refine ⟨?_, ?_, ?_, ?_⟩ <;>
        simp [encryptFileGpg, hfp, fsRemove, fsInsert]
    · have hd : (rc != 0) = true := by simpa using h0
      refine ⟨?_, ?_, ?_, ?_⟩ <;> simp [encryptFileGpg, hfp, hd, h0]

/-- C6 witness: the theorem applied at a directory holding `f.sql` and
a subprocess exit code 3. -/
theorem c6_witness :
    ((fsInsert fsEmpty "f.sql" [1]) "f.sql").isSome = true ∧
    ((encryptFileGpg (fsInsert fsEmpty "f.sql" [1]) "f.sql" "pw"
        (GpgOutcome.completed 3 [9])).1 = decide ((3 : Int) = 0) ∧
      (encryptFileGpg (fsInsert fsEmpty "f.sql" [1]) "f.sql" "pw"
        (GpgOutcome.completed 3 [9])).2 "f.sql" =
        (if (3 : Int) = 0 then none else (fsInsert fsEmpty "f.sql" [1]) "f.sql") ∧
      (encryptFileGpg (fsInsert fsEmpty "f.sql" [1]) "f.sql" "pw"
        GpgOutcome.raised).1 = false ∧
      (encryptFileGpg (fsInsert fsEmpty "f.sql" [1]) "f.sql" "pw"
        GpgOutcome.raised).2 "f.sql" = (fsInsert fsEmpty "f.sql" [1]) "f.sql") :=
  ⟨rfl, c6_theorem (fsInsert fsEmpty "f.sql" [1]) "f.sql" "pw" 3 [9] rfl⟩

/-! ## Claim C9 -/

/-- C9: requesting an incremental backup (`--incremental`, no `--full`)
when `find_latest_full_backup` returns `None` silently selects a full
backup plan, and the resulting manifest records `backup_type = "full"`
with a null `base_backup`; when a full backup id is found, the manifest
records `backup_type = "incremental"` and that id as `base_backup`. -/
theorem c9_theorem (fs : FS) (ts : String) (dur : Nat) (enc : Bool)
    (bid b : String) (hb : b ≠ "") :
    backupPlan true false none = ("full", none, none) ∧
    lookupJ (createBackupManifest fs "full" none none ts dur enc bid)
      "backup_type" = some (Json.str "full") ∧
    lookupJ (createBackupManifest fs "full" none none ts dur enc bid)
      "base_backup" = some Json.null ∧
    backupPlan true false (some b) = ("incremental", some b, some b) ∧
    lookupJ (createBackupManifest fs "incremental" (some b) (some b) ts dur enc bid)
      "backup_type" = some (Json.str "incremental") ∧
    lookupJ (createBackupManifest fs "incremental" (some b) (some b) ts dur enc bid)
      "base_backup" = some (Json.str b) := by
  have hbt : optStrTruthy (some b) = true := by simpa [optStrTruthy] using hb
  refine ⟨rfl, rfl, rfl, ?_, rfl, rfl⟩
  simp [backupPlan, hbt]

/-- C9 witness: the theorem applied at a concrete backup id. -/
theorem c9_witness :
    ("20250101_000000" : String) ≠ "" ∧
    (backupPlan true false none = ("full", none, none) ∧
      lookupJ (createBackupManifest fsEmpty "full" none none "t" 0 false "b")
        "backup_type" = some (Json.str "full") ∧
      lookupJ (createBackupManifest fsEmpty "full" none none "t" 0 false "b")
        "base_backup" = some Json.null ∧
      backupPlan true false (some "20250101_000000") =
        ("incremental", some "20250101_000000", some "20250101_000000") ∧
      lookupJ (createBackupManifest fsEmpty "incremental"
        (some "20250101_000000") (some "20250101_000000") "t" 0 false "b")
        "backup_type" = some (Json.str "incremental") ∧
      lookupJ (createBackupManifest fsEmpty "incremental"
        (some "20250101_000000") (some "20250101_000000") "t" 0 false "b")
        "base_backup" = some (Json.str "20250101_000000")) :=
  ⟨by decide,
   c9_theorem fsEmpty "t" 0 false "b" "20250101_000000" (by decide)⟩

/-! ## Claim C4 -/

/-- Required-field validation outcome for a manifest source. -/
def requiredOkSrc : ManifestSrc → Bool
  | .parsedJ j => requiredFieldsOk j
  | _ => false

/-- C4 counterexample: for a backup directory with no `manifest.json`,
`verify_backup_integrity` returns `success = false` while the report
satisfies `files_failed == 0` and `files_verified == files_total`
(all three counters are 0) — so `success` is not equivalent to the
claimed counter condition. -/
theorem c4_counterexample :
    ¬(((verifyBackupIntegrity ManifestSrc.missing fsEmpty).1 = true) ↔
      ((verifyBackupIntegrity ManifestSrc.missing fsEmpty).2.files_failed = 0 ∧
       (verifyBackupIntegrity ManifestSrc.missing fsEmpty).2.files_verified =
         (verifyBackupIntegrity ManifestSrc.missing fsEmpty).2.files_total)) := by
  decide

/-- C4 amended: `success` is `files_failed == 0 ∧ files_verified ==
files_total` *conjoined with* the manifest having loaded and all four
required fields (`backup_id`, `backup_type`, `encrypted`, `databases`)
being present; a missing/unparsable manifest or a missing required
field yields `success = false` even though the early-returned report
satisfies the counter condition vacuously. -/
theorem c4_amended (msrc : ManifestSrc) (fs : FS)
    (hshape : manifestShapeOk msrc = true) :
    (verifyBackupIntegrity msrc fs).1 = true ↔
      (manifestLoadOk msrc = true ∧ requiredOkSrc msrc = true ∧
       (verifyBackupIntegrity msrc fs).2.files_failed = 0 ∧
       (verifyBackupIntegrity msrc fs).2.files_verified =
         (verifyBackupIntegrity msrc fs).2.files_total) := by
  cases msrc with
  | missing => simp [verifyBackupIntegrity, manifestLoadOk]
  | corrupt => simp [verifyBackupIntegrity, manifestLoadOk]
  | parsedJ j =>
    cases hfind : requiredManifestFields.find?
        (fun f => (lookupJ j.asObjD f).isNone) with
    | some f =>
      have hreq : requiredOkSrc (.parsedJ j) = false := by
        have hp := List.find?_some hfind
        have hmem := List.mem_of_find?_eq_some hfind
        simp only [requiredOkSrc, requiredFieldsOk, List.all_eq_false]
        exact ⟨f, hmem, by simpa using hp⟩
      simp [verifyBackupIntegrity, hfind, hreq]
    | none =>
      have hreq : requiredOkSrc (.parsedJ j) = true := by
        simp only [requiredOkSrc, requiredFieldsOk, List.all_eq_true]
        intro f hf
        have := List.find?_eq_none.mp hfind f hf
        simp only [Option.isNone_iff_eq_none] at this
        exact Option.isSome_iff_ne_none.mpr this
      simp [verifyBackupIntegrity, hfind, hreq, manifestLoadOk,
        Bool.and_eq_true, beq_iff_eq]

/-- A minimal well-formed manifest: required fields present, no
database entries, no config. -/
def c4Manifest : ManifestSrc :=
  ManifestSrc.parsedJ (Json.obj
    [("backup_id", Json.str "20250101_000000"),
     ("backup_type", Json.str "full"),
     ("encrypted", Json.bool false),
     ("databases", Json.obj [])])

/-- C4 witness: the amended equivalence at a concrete well-formed
manifest over an empty directory. -/
theorem c4_witness :
    manifestShapeOk c4Manifest = true ∧
    ((verifyBackupIntegrity c4Manifest fsEmpty).1 = true ↔
      (manifestLoadOk c4Manifest = true ∧ requiredOkSrc c4Manifest = true ∧
       (verifyBackupIntegrity c4Manifest fsEmpty).2.files_failed = 0 ∧
       (verifyBackupIntegrity c4Manifest fsEmpty).2.files_verified =
         (verifyBackupIntegrity c4Manifest fsEmpty).2.files_total)) :=
  ⟨by decide, c4_amended c4Manifest fsEmpty (by decide)⟩

/-! ## Claim C10 -/

/-- `config` is truthy (non-empty) but its `env_file` is falsy, so the
config file is counted in `files_total` yet the verification block is
skipped. -/
def cfgNoVerdict (j : Json) : Bool :=
  optJTruthy (lookupJ j.asObjD "config") &&
  !optJTruthy (lookupJ ((lookupJ j.asObjD "config").getD (Json.obj [])).asObjD
    "env_file")

/-- A parsed manifest whose non-empty `config` object contains an
`env_file` key bound to the empty string. -/
def c10Manifest : Json :=
  Json.obj
    [("backup_id", Json.str "20250101_000000"),
     ("backup_type", Json.str "full"),
     ("encrypted", Json.bool false),
     ("databases", Json.obj []),
     ("config", Json.obj [("env_file", Json.str "")])]

/-- C10 counterexample: this manifest parses with all required fields,
its non-empty `config` object *contains* an `env_file` key (bound to
`""`), yet the config file receives no verdict:
`files_verified + files_failed = 0` while `files_total = 1`, so the
claimed `files_verified + files_failed == files_total` fails. -/
theorem c10_counterexample :
    lookupJ c10Manifest.asObjD "config" =
      some (Json.obj [("env_file", Json.str "")]) ∧
    (verifyBackupIntegrity (ManifestSrc.parsedJ c10Manifest) fsEmpty).2.files_verified +
      (verifyBackupIntegrity (ManifestSrc.parsedJ c10Manifest) fsEmpty).2.files_failed = 0 ∧
    (verifyBackupIntegrity (ManifestSrc.parsedJ c10Manifest) fsEmpty).2.files_total = 1 := by
  exact ⟨rfl, rfl, rfl⟩

/-- C10 amended: for a parsed, well-shaped manifest with the required
fields, every counted file receives exactly one verdict *except* the
config file when `config` is non-empty but its `env_file` value is
falsy (absent, null or the empty string): then the config file is
counted but unjudged, and `success` is necessarily false. The claim's
antecedent must read "contains a truthy (non-empty string) `env_file`",
not merely "contains an `env_file` key". -/
theorem c10_amended (j : Json) (fs : FS)
    (hshape : manifestShapeOk (ManifestSrc.parsedJ j) = true)
    (hreq : requiredFieldsOk j = true) :
    (verifyBackupIntegrity (ManifestSrc.parsedJ j) fs).2.files_total =
      (verifyBackupIntegrity (ManifestSrc.parsedJ j) fs).2.files_verified +
        (verifyBackupIntegrity (ManifestSrc.parsedJ j) fs).2.files_failed +
        (if cfgNoVerdict j = true then 1 else 0) ∧
    ((verifyBackupIntegrity (ManifestSrc.parsedJ j) fs).1 && cfgNoVerdict j) =
      false := by
  have hfind : requiredManifestFields.find?
      (fun f => (lookupJ j.asObjD f).isNone) = none := by
    refine List.find?_eq_none.mpr fun f hf => ?_
    have h1 := List.all_eq_true.mp hreq f hf
    intro hno
    simp only [Option.isNone_iff_eq_none] at hno
    rw [hno] at h1
    cases h1
  have hcount := foldl_processDb_count fs
    (((lookupJ j.asObjD "databases").getD (Json.obj [])).asObjD)
  simp only [verifyBackupIntegrity, hfind, emptyReport]
  by_cases hcfg : optJTruthy (lookupJ j.asObjD "config") = true
  · by_cases henv : optJTruthy (lookupJ
        ((lookupJ j.asObjD "config").getD (Json.obj [])).asObjD "env_file") = true
    · simp only [hcfg, henv, if_true, cfgNoVerdict, Bool.not_true,
        Bool.and_false, Bool.false_eq_true, if_false]
      obtain ⟨h2a, h2b⟩ := hcount
        ⟨0, 0, ((lookupJ j.asObjD "databases").getD (Json.obj [])).asObjD.length + 1,
         [], [], []⟩
      obtain ⟨h3a, h3b⟩ := processConfig_one_verdict fs
        (List.foldl (fun r p => processDb fs r p.1 p.2)
          ⟨0, 0, ((lookupJ j.asObjD "databases").getD (Json.obj [])).asObjD.length + 1,
           [], [], []⟩
          ((lookupJ j.asObjD "databases").getD (Json.obj [])).asObjD)
        ((lookupJ j.asObjD "config").getD (Json.obj [])).asObjD
      simp only [] at h2a h2b
      exact ⟨by omega, trivial⟩
    · have henv' : optJTruthy (lookupJ
          ((lookupJ j.asObjD "config").getD (Json.obj [])).asObjD "env_file") = false :=
        Bool.not_eq_true _ |>.mp henv
      simp only [hcfg, henv', if_true, Bool.false_eq_true, if_false, cfgNoVerdict,
        Bool.not_false, Bool.and_true, Bool.and_self, if_true]
      obtain ⟨h2a, h2b⟩ := hcount
        ⟨0, 0, ((lookupJ j.asObjD "databases").getD (Json.obj [])).asObjD.length + 1,
         [], [], []⟩
      simp only [] at h2a h2b
      refine ⟨by omega, ?_⟩
      refine Bool.eq_false_iff.mpr fun hX => ?_
      simp only [Bool.and_eq_true, beq_iff_eq] at hX
      omega
  · have hcfg' : optJTruthy (lookupJ j.asObjD "config") = false :=
      Bool.not_eq_true _ |>.mp hcfg
    simp only [hcfg', Bool.false_eq_true, if_false, cfgNoVerdict,
      Bool.false_and, Bool.and_false]
    obtain ⟨h2a, h2b⟩ := hcount
      ⟨0, 0, ((lookupJ j.asObjD "databases").getD (Json.obj [])).asObjD.length + 0,
       [], [], []⟩
    simp only [] at h2a h2b
    exact ⟨by omega, trivial⟩

/-- C10 witness: the amended statement at the concrete manifest whose
config is non-empty with a falsy `env_file`. -/
theorem c10_witness :
    manifestShapeOk (ManifestSrc.parsedJ c10Manifest) = true ∧
    requiredFieldsOk c10Manifest = true ∧
    ((verifyBackupIntegrity (ManifestSrc.parsedJ c10Manifest) fsEmpty).2.files_total =
      (verifyBackupIntegrity (ManifestSrc.parsedJ c10Manifest) fsEmpty).2.files_verified +
        (verifyBackupIntegrity (ManifestSrc.parsedJ c10Manifest) fsEmpty).2.files_failed +
        (if cfgNoVerdict c10Manifest = true then 1 else 0) ∧
      ((verifyBackupIntegrity (ManifestSrc.parsedJ c10Manifest) fsEmpty).1 &&
        cfgNoVerdict c10Manifest) = false) :=
  ⟨by decide, by decide,
   c10_amended c10Manifest fsEmpty (by decide) (by decide)⟩

/-! ## Per-entry lemmas for the Manifest Generator / Integrity Verifier -/

theorem dbEntry_spec (fs : FS) (enc : Bool) (bt : String) (bb : Option String)
    (dn fn : String) (j : Json) (s : Nat)
    (h : dbEntry fs enc bt bb dn fn = some (j, s)) :
    ∃ contents : List Nat,
      fs (if enc then fn ++ ".gpg" else fn) = some contents ∧
      s = contents.length ∧
      lookupJ j.asObjD "file" =
        some (Json.str (if enc then fn ++ ".gpg" else fn)) ∧
      lookupJ j.asObjD "checksum" = some (Json.str (checksumString contents)) ∧
      lookupJ j.asObjD "size_bytes" = some (Json.num contents.length) := by
  cases hfs : fs (if enc then fn ++ ".gpg" else fn) with
  | none =>
    rw [dbEntry] at h
    simp only [hfs] at h
    cases h
  | some contents =>
    rw [dbEntry] at h
    simp only [hfs, Option.some.injEq, Prod.mk.injEq] at h
    obtain ⟨hj, hs⟩ := h
    subst hj
    subst hs
    refine ⟨contents, rfl, rfl, ?_, ?_, ?_⟩ <;>
      simp [Json.asObjD, lookupJ]

theorem configEntry_spec (fs : FS) (enc : Bool) (j : Json) (s : Nat)
    (h : configEntry fs enc = some (j, s)) :
    ∃ contents : List Nat,
      fs (if enc then ".env.backup.gpg" else ".env.backup") = some contents ∧
      s = contents.length ∧
      lookupJ j.asObjD "env_file" =
        some (Json.str (if enc then ".env.backup.gpg" else ".env.backup")) ∧
      lookupJ j.asObjD "checksum" = some (Json.str (checksumString contents)) ∧
      lookupJ j.asObjD "size_bytes" = some (Json.num contents.length) ∧
      jTruthy j = true ∧ j.asObjD.isEmpty = false := by
  cases hfs : fs (if enc then ".env.backup.gpg" else ".env.backup") with
  | none =>
    rw [configEntry] at h
    simp only [hfs] at h
    cases h
  | some contents =>
    rw [configEntry] at h
    simp only [hfs, Option.some.injEq, Prod.mk.injEq] at h
    obtain ⟨hj, hs⟩ := h
    subst hj
    subst hs
    refine ⟨contents, rfl, rfl, ?_, ?_, ?_, ?_, ?_⟩ <;>
      simp [Json.asObjD, lookupJ, jTruthy]

theorem processDb_ok (fs : FS) (r : VReport) (dn : String) (j : Json)
    (actual : String) (contents : List Nat)
    (hfile : lookupJ j.asObjD "file" = some (Json.str actual))
    (hactual : actual ≠ "")
    (hcs : lookupJ j.asObjD "checksum" = some (Json.str (checksumString contents)))
    (hfs : fs actual = some contents) :
    (processDb fs r dn j).files_verified = r.files_verified + 1 ∧
    (processDb fs r dn j).files_failed = r.files_failed ∧
    (processDb fs r dn j).files_total = r.files_total := by
  have htr : optJTruthy (some (Json.str actual)) = true := by
    simpa [optJTruthy, jTruthy] using hactual
  simp only [processDb, hfile, htr, Bool.not_true, Bool.false_eq_true, if_false,
    hcs, getStrD, hfs, strip_checksumString, beq_self_eq_true, if_true]
  exact ⟨trivial, trivial, trivial⟩

theorem processConfig_ok (fs : FS) (r : VReport) (cinfo : List (String × Json))
    (actual : String) (contents : List Nat)
    (hcs : lookupJ cinfo "checksum" = some (Json.str (checksumString contents)))
    (hfile : lookupJ cinfo "env_file" = some (Json.str actual))
    (hfs : fs actual = some contents) :
    (processConfig fs r cinfo).files_verified = r.files_verified + 1 ∧
    (processConfig fs r cinfo).files_failed = r.files_failed ∧
    (processConfig fs r cinfo).files_total = r.files_total := by
  simp only [processConfig, hfile, hcs, getStrD, hfs, strip_checksumString,
    beq_self_eq_true, if_true]
  exact ⟨trivial, trivial, trivial⟩

theorem foldl_processDb_allok (fs : FS) :
    ∀ (l : List (String × Json)) (r : VReport),
      (∀ p ∈ l, ∀ r' : VReport,
        (processDb fs r' p.1 p.2).files_verified = r'.files_verified + 1 ∧
        (processDb fs r' p.1 p.2).files_failed = r'.files_failed ∧
        (processDb fs r' p.1 p.2).files_total = r'.files_total) →
      (l.foldl (fun r p => processDb fs r p.1 p.2) r).files_verified =
        r.files_verified + l.length ∧
      (l.foldl (fun r p => processDb fs r p.1 p.2) r).files_failed =
        r.files_failed ∧
      (l.foldl (fun r p => processDb fs r p.1 p.2) r).files_total =
        r.files_total := by
  intro l
  induction l with
  | nil => intro r _; exact ⟨rfl, rfl, rfl⟩
  | cons hd tl ih =>
    intro r hall
    have hhd := hall hd (List.mem_cons_self hd tl) r
    have htl := ih (processDb fs r hd.1 hd.2) fun p hp => hall p (List.mem_cons_of_mem hd hp)
    simp only [List.foldl_cons, List.length_cons]
    refine ⟨?_, ?_, ?_⟩ <;> omega

theorem append_gpg_ne_empty (s : String) : s ++ ".gpg" ≠ "" := by
  intro h
  have h2 := congrArg String.length h
  rw [String.length_append] at h2
  have h3 : (".gpg" : String).length = 4 := rfl
  have h4 : ("" : String).length = 0 := rfl
  omega

theorem mem_manifestDatabases (fs : FS) (enc : Bool) (bt : String)
    (bb : Option String) (dn : String) (j : Json)
    (h : (dn, j) ∈ manifestDatabases fs enc bt bb) :
    ∃ fn s, (dn, fn) ∈ dbFiles ∧ dbEntry fs enc bt bb dn fn = some (j, s) := by
  simp only [manifestDatabases, List.mem_filterMap] at h
  obtain ⟨p, hp, hmap⟩ := h
  cases he : dbEntry fs enc bt bb p.1 p.2 with
  | none => rw [he] at hmap; cases hmap
  | some e =>
    rw [he] at hmap
    simp only [Option.map_some', Option.some.injEq, Prod.mk.injEq] at hmap
    obtain ⟨hdn, hj⟩ := hmap
    subst hdn
    subst hj
    exact ⟨p.2, e.2, by simpa using hp, by simpa using he⟩

/-- A checksum entry is tied to the stored file: the `file` field names
a file of the directory, the `checksum` field is `sha256:` followed by
the digest of exactly that file's bytes, and it has the
`sha256:<64 lowercase hex>` shape. -/
def entryChecksumOk (fs : FS) (v : Json) : Bool :=
  match lookupJ v.asObjD "file", lookupJ v.asObjD "checksum" with
  | some (.str fn), some (.str cs) =>
    (match fs fn with
     | some contents => cs == checksumString contents
     | none => false) && checksumFormOk cs
  | _, _ => false

/-- Same, for the config entry keyed by `env_file`. -/
def configChecksumOk (fs : FS) (v : Json) : Bool :=
  match lookupJ v.asObjD "env_file", lookupJ v.asObjD "checksum" with
  | some (.str fn), some (.str cs) =>
    (match fs fn with
     | some contents => cs == checksumString contents
     | none => false) && checksumFormOk cs
  | _, _ => false

theorem entryChecksumOk_of_dbEntry (fs : FS) (enc : Bool) (bt : String)
    (bb : Option String) (dn fn : String) (j : Json) (s : Nat)
    (h : dbEntry fs enc bt bb dn fn = some (j, s)) :
    entryChecksumOk fs j = true := by
  obtain ⟨c, hfs, hs, hfile, hcs, hsize⟩ := dbEntry_spec fs enc bt bb dn fn j s h
  simp only [entryChecksumOk, hfile, hcs, hfs, beq_self_eq_true, Bool.true_and]
  exact checksumString_formOk c

theorem manifestDatabases_all_checksumOk (fs : FS) (enc : Bool) (bt : String)
    (bb : Option String) :
    ((manifestDatabases fs enc bt bb).all fun p => entryChecksumOk fs p.2) =
      true := by
  refine List.all_eq_true.mpr fun p hp => ?_
  obtain ⟨fn, s, hmem, he⟩ :=
    mem_manifestDatabases fs enc bt bb p.1 p.2 (by simpa using hp)
  exact entryChecksumOk_of_dbEntry fs enc bt bb p.1 fn p.2 s he

theorem configChecksumOk_of_configEntry (fs : FS) (enc : Bool) (j : Json)
    (s : Nat) (h : configEntry fs enc = some (j, s)) :
    configChecksumOk fs j = true := by
  obtain ⟨c, hfs, hs, hfile, hcs, hsize, htr, hne⟩ := configEntry_spec fs enc j s h
  simp only [configChecksumOk, hfile, hcs, hfs, beq_self_eq_true, Bool.true_and]
  exact checksumString_formOk c

/-- The `size_bytes` field of an entry, 0 when absent. -/
def entrySizeField (v : Json) : Nat :=
  match lookupJ v.asObjD "size_bytes" with
  | some (.num n) => n
  | _ => 0

theorem dbSizes_align (fs : FS) (enc : Bool) (bt : String) (bb : Option String) :
    ∀ l : List (String × String),
      (((l.filterMap fun p =>
        (dbEntry fs enc bt bb p.1 p.2).map fun e => (p.1, e.1)).map
        fun p => entrySizeField p.2).sum) =
      ((l.filterMap fun p =>
        (dbEntry fs enc bt bb p.1 p.2).map fun e => e.2).sum) := by
  intro l
  induction l with
  | nil => rfl
  | cons hd tl ih =>
    simp only [List.filterMap_cons]
    cases he : dbEntry fs enc bt bb hd.1 hd.2 with
    | none => simpa using ih
    | some e =>
      obtain ⟨c, hfs, hs, hfile, hcs, hsize⟩ :=
        dbEntry_spec fs enc bt bb hd.1 hd.2 e.1 e.2 (by simpa using he)
      simp only [Option.map_some', List.map_cons, List.sum_cons, ih]
      simp [entrySizeField, hsize, hs]

/-- C8: in every manifest produced by `create_backup_manifest`,
`total_size_bytes` equals the sum of the `size_bytes` fields of the
included database entries, plus the config entry's `size_bytes` when a
config artifact is present (non-empty `config` object). Sources whose
artifact is absent are simply not among the entries (the generator is a
total function over any directory contents, so absence causes no
error). -/
theorem c8_theorem (fs : FS) (bt : String) (bb pb : Option String)
    (ts : String) (dur : Nat) (enc : Bool) (bid : String) :
    lookupJ (createBackupManifest fs bt bb pb ts dur enc bid)
      "total_size_bytes" =
      some (Json.num
        (((manifestDatabases fs enc bt bb).map fun p => entrySizeField p.2).sum +
         (if (manifestConfigJson fs enc).asObjD.isEmpty then 0
          else entrySizeField (manifestConfigJson fs enc)))) := by
  have h1 : ((manifestDatabases fs enc bt bb).map fun p => entrySizeField p.2).sum =
      dbTotalSize fs enc bt bb := dbSizes_align fs enc bt bb dbFiles
  have h2 : (if (manifestConfigJson fs enc).asObjD.isEmpty then 0
      else entrySizeField (manifestConfigJson fs enc)) = configSize fs enc := by
    cases hce : configEntry fs enc with
    | none => simp [manifestConfigJson, configSize, hce, Json.asObjD]
    | some e =>
      obtain ⟨c, hfs, hs, hfile, hcs, hsize, htr, hne⟩ :=
        configEntry_spec fs enc e.1 e.2 (by simpa using hce)
      simp [manifestConfigJson, configSize, hce, hne, entrySizeField, hsize]
      omega
  rw [h1, h2]
  rfl

/-- Verification soundness: a manifest freshly generated over a
directory verifies successfully against that same directory —
`verify_backup_integrity` takes no passphrase and re-derives each
checksum from the stored file named by the entry. -/
theorem verify_fresh_manifest (fs : FS) (bt : String) (bb pb : Option String)
    (ts : String) (dur : Nat) (enc : Bool) (bid : String) :
    (verifyBackupIntegrity
      (ManifestSrc.parsedJ
        (Json.obj (createBackupManifest fs bt bb pb ts dur enc bid)))
      fs).1 = true := by
  have hfind : requiredManifestFields.find?
      (fun f => (lookupJ
        (Json.obj (createBackupManifest fs bt bb pb ts dur enc bid)).asObjD
        f).isNone) = none := rfl
  have hdbs : ((lookupJ
      (Json.obj (createBackupManifest fs bt bb pb ts dur enc bid)).asObjD
      "databases").getD (Json.obj [])).asObjD =
      manifestDatabases fs enc bt bb := rfl
  have hcfg : lookupJ
      (Json.obj (createBackupManifest fs bt bb pb ts dur enc bid)).asObjD
      "config" = some (manifestConfigJson fs enc) := rfl
  have hall : ∀ p ∈ manifestDatabases fs enc bt bb, ∀ r' : VReport,
      (processDb fs r' p.1 p.2).files_verified = r'.files_verified + 1 ∧
      (processDb fs r' p.1 p.2).files_failed = r'.files_failed ∧
      (processDb fs r' p.1 p.2).files_total = r'.files_total := by
    intro p hp r'
    obtain ⟨fn, s, hmem, he⟩ :=
      mem_manifestDatabases fs enc bt bb p.1 p.2 (by simpa using hp)
    obtain ⟨c, hfs, hs, hfile, hcs, hsize⟩ :=
      dbEntry_spec fs enc bt bb p.1 fn p.2 s he
    have hfn : fn ≠ "" := by
      have hq : ∀ q ∈ dbFiles, q.2 ≠ "" := by decide
      exact hq (p.1, fn) hmem
    have hne : (if enc then fn ++ ".gpg" else fn) ≠ "" := by
      cases enc
      · simpa using hfn
      · simpa using append_gpg_ne_empty fn
    exact processDb_ok fs r' p.1 p.2 _ c hfile hne hcs hfs
  simp only [verifyBackupIntegrity, hfind, hdbs, hcfg, emptyReport,
    Option.getD_some]
  cases hce : configEntry fs enc with
  | none =>
    have hcj : manifestConfigJson fs enc = Json.obj [] := by
      simp [manifestConfigJson, hce]
    simp only [hcj, optJTruthy, jTruthy, List.isEmpty_nil, Bool.not_true,
      Bool.false_eq_true, if_false, Nat.add_zero]
    obtain ⟨hv, hf, ht⟩ := foldl_processDb_allok fs
      (manifestDatabases fs enc bt bb)
      ⟨0, 0, (manifestDatabases fs enc bt bb).length, [], [], []⟩ hall
    simp only [] at hv hf ht
    simp [hv, hf, ht]
  | some e =>
    obtain ⟨c, hfs, hs, hfile, hcs, hsize, htr, hne⟩ :=
      configEntry_spec fs enc e.1 e.2 (by simpa using hce)
    have hcj : manifestConfigJson fs enc = e.1 := by
      simp [manifestConfigJson, hce]
    have henv : jTruthy (Json.str
        (if enc = true then ".env.backup.gpg" else ".env.backup")) = true := by
      cases enc <;> decide
    simp only [hcj, optJTruthy, htr, if_true, hfile, henv]
    obtain ⟨hv, hf, ht⟩ := foldl_processDb_allok fs
      (manifestDatabases fs enc bt bb)
      ⟨0, 0, (manifestDatabases fs enc bt bb).length + 1, [], [], []⟩ hall
    obtain ⟨hv2, hf2, ht2⟩ := processConfig_ok fs
      (List.foldl (fun r p => processDb fs r p.1 p.2)
        ⟨0, 0, (manifestDatabases fs enc bt bb).length + 1, [], [], []⟩
        (manifestDatabases fs enc bt bb))
      e.1.asObjD _ c hcs hfile hfs
    simp only [] at hv hf ht
    simp [henv, hv2, hf2, ht2, hv, hf, ht]

/-! ## Claim C7 -/

/-- C7: every checksum written by `create_backup_manifest` names the
stored artifact in its `file` (or `env_file`) field and equals
`sha256:` followed by the 64-lowercase-hex digest of exactly that
stored file's bytes — when `encrypted=true` the stored file is the
`.gpg` artifact, so the digest covers the encrypted bytes, never the
plaintext; and `verify_backup_integrity` (whose inputs are only the
manifest and the directory — it has no passphrase parameter and never
decrypts) succeeds on the freshly generated manifest for any
`encrypted` flag. -/
theorem c7_theorem (fs : FS) (bt : String) (bb pb : Option String)
    (ts : String) (dur : Nat) (enc : Bool) (bid : String) :
    ((manifestDatabases fs enc bt bb).all fun p => entryChecksumOk fs p.2) =
      true ∧
    ((manifestConfigJson fs enc).asObjD.isEmpty ||
      configChecksumOk fs (manifestConfigJson fs enc)) = true ∧
    (verifyBackupIntegrity
      (ManifestSrc.parsedJ
        (Json.obj (createBackupManifest fs bt bb pb ts dur enc bid)))
      fs).1 = true := by
  refine ⟨manifestDatabases_all_checksumOk fs enc bt bb, ?_,
    verify_fresh_manifest fs bt bb pb ts dur enc bid⟩
  cases hce : configEntry fs enc with
  | none => simp [manifestConfigJson, hce, Json.asObjD]
  | some e =>
    have hok := configChecksumOk_of_configEntry fs enc e.1 e.2
      (by simpa using hce)
    simp [manifestConfigJson, hce, hok]
